import Mathlib

/-!
Verification development for the echoverse text-rewrite core
(`backend/utils.py` and `backend/rewrite.py`).

The Python code is shallowly embedded:

* Strings are Lean `String`s; the chunker works on `List Char`
  (`String.data`), which matches Python's code-point indexing (`len`,
  slicing, `split`, `strip`).
* JSON response bodies (`resp.json()` results) are values of `PyVal`.
* Python exceptions are `Except String` with the string standing for
  `repr(e)`.
* The network and the optional `google-genai` SDK are an explicit
  environment (`OnceEnv`): one value describes what one adapter attempt
  would observe.  Per-attempt and per-chunk variation of the outside
  world is captured by quantifying over functions of the attempt /
  chunk index.
* `time.sleep` leaves a trace: the retry wrapper returns, besides the
  value the Python function returns, the list of slept durations and
  the number of adapter invocations.  Durations are `Rat` (Python
  floats are used only as sleep lengths here, never compared or
  accumulated, so exact rationals are a faithful carrier).
-/

/-- A Python value as produced by `resp.json()` (JSON-decoded data):
strings, integers, booleans, `None`, lists and string-keyed dicts.
JSON fractional numbers are not modelled (no claim touches numeric
payload fields); dict insertion order is the list order. -/
inductive PyVal where
  | str (s : String)
  | int (n : Int)
  | bool (b : Bool)
  | null
  | list (xs : List PyVal)
  | obj (fields : List (String × PyVal))

/-- Python truthiness (`if v:`) for the shapes of `PyVal`. -/
def PyVal.truthy : PyVal → Bool
  | .str s => !(s == "")
  | .int n => !(n == 0)
  | .bool b => b
  | .null => false
  | .list xs => !xs.isEmpty
  | .obj fs => !fs.isEmpty

mutual
/-- Python `repr` of a `PyVal`, as used by `str(body)` on dicts/lists
(for a dict, `str` and `repr` agree).  Escaping of quotes inside string
literals is not modelled; no claim inspects these renderings. -/
def pyRepr : PyVal → String
  | .str s => "'" ++ s ++ "'"
  | .int n => toString n
  | .bool b => if b then "True" else "False"
  | .null => "None"
  | .list xs => "[" ++ pyReprList xs ++ "]"
  | .obj fs => "\x7b" ++ pyReprObj fs ++ "\x7d"

def pyReprList : List PyVal → String
  | [] => ""
  | [x] => pyRepr x
  | x :: y :: xs => pyRepr x ++ ", " ++ pyReprList (y :: xs)

def pyReprObj : List (String × PyVal) → String
  | [] => ""
  | [(k, v)] => "'" ++ k ++ "': " ++ pyRepr v
  | (k, v) :: y :: xs => "'" ++ k ++ "': " ++ pyRepr v ++ ", " ++ pyReprObj (y :: xs)
end

/-- Python `str(v)`: identity on strings, `repr`-style rendering
otherwise. -/
def pyStr : PyVal → String
  | .str s => s
  | v => pyRepr v

/-- Backslash/quote escaping used by `jsonDumps`. -/
def jsonEscape : List Char → String
  | [] => ""
  | c :: cs =>
      (if c = '\\' then "\\\\" else if c = '"' then "\\\"" else String.singleton c)
        ++ jsonEscape cs

mutual
/-- `json.dumps` of a `PyVal` (all shapes are JSON-serializable, so the
`default=str` hook never fires).  String escaping of characters other
than quote and backslash is not modelled; no claim inspects these
renderings. -/
def jsonDumps : PyVal → String
  | .str s => "\"" ++ jsonEscape s.data ++ "\""
  | .int n => toString n
  | .bool b => if b then "true" else "false"
  | .null => "null"
  | .list xs => "[" ++ jsonDumpsList xs ++ "]"
  | .obj fs => "\x7b" ++ jsonDumpsObj fs ++ "\x7d"

def jsonDumpsList : List PyVal → String
  | [] => ""
  | [x] => jsonDumps x
  | x :: y :: xs => jsonDumps x ++ ", " ++ jsonDumpsList (y :: xs)

def jsonDumpsObj : List (String × PyVal) → String
  | [] => ""
  | [(k, v)] => "\"" ++ jsonEscape k.data ++ "\": " ++ jsonDumps v
  | (k, v) :: y :: xs =>
      "\"" ++ jsonEscape k.data ++ "\": " ++ jsonDumps v ++ ", " ++ jsonDumpsObj (y :: xs)
end

/-- The whitespace class of Python `str.strip()` restricted to ASCII
(space, tab, newline, carriage return, form feed, vertical tab).
Unicode whitespace is not modelled; no claim involves it. -/
def isPyWhitespace (c : Char) : Bool :=
  c = ' ' || c = '\t' || c = '\n' || c = '\r' || c = '\x0c' || c = '\x0b'

/-- Python `str.strip()` on a character list. -/
def pyStripL (p : List Char) : List Char :=
  ((p.dropWhile isPyWhitespace).reverse.dropWhile isPyWhitespace).reverse

/-- Python `str.strip()` on a `String` (as in `out.strip()` and
`p.strip()` in the source). -/
def pyStrip (s : String) : String :=
  String.mk (pyStripL s.data)

/-- The two-character paragraph separator `"\n\n"`. -/
def nl2 : List Char := ['\n', '\n']

/-- Python `text.split("\n\n")`: split on non-overlapping occurrences
of the two-newline separator, scanning left to right; the result is
never empty and keeps empty fragments (exactly `str.split` with a
non-empty separator). -/
def pySplitPar : List Char → List (List Char)
  | [] => [[]]
  | '\n' :: '\n' :: rest => [] :: pySplitPar rest
  | c :: rest =>
    match pySplitPar rest with
    | head :: tail => (c :: head) :: tail
    | [] => [[c]]

/-- Python `sep.join(pieces)` on character lists. -/
def pyJoinL (sep : List Char) : List (List Char) → List Char
  | [] => []
  | [x] => x
  | x :: y :: xs => x ++ sep ++ pyJoinL sep (y :: xs)

/-- Python `"\n\n".join(outputs)` on `String`s, as used by
`rewrite_text` to reassemble chunk contributions. -/
def pyJoinS (sep : String) (xs : List String) : String :=
  String.mk (pyJoinL sep.data (xs.map String.data))

/-- Fuel-driven core of the hard-cut slicing
`for i in range(0, len(p), max_chars): chunks.append(p[i:i+max_chars])`.
The fuel only has to be at least `p.length` (each step consumes at
least one character when `m ≥ 1`). -/
def hardSlicesFuel : Nat → List Char → Nat → List (List Char)
  | 0, _, _ => []
  | fuel + 1, p, m => if p.isEmpty then [] else p.take m :: hardSlicesFuel fuel (p.drop m) m

/-- The hard-cut path of `chunk_text_by_chars`: fixed-size slices of a
single over-long paragraph.  For `m = 0` the Python `range` call raises
`ValueError`; the model is only used (and only claimed about) for
`m ≥ 1`. -/
def hardSlicesL (p : List Char) (m : Nat) : List (List Char) :=
  if m = 0 then [] else hardSlicesFuel p.length p m

/-- The paragraph-accumulation loop of `chunk_text_by_chars`
(`backend/utils.py` lines 12-30): `cur` is the running buffer, the
returned list is everything appended to `chunks` plus the final flush
of `cur`. -/
def chunkLoopL (maxChars : Nat) : List (List Char) → List Char → List (List Char)
  | [], cur => if cur.isEmpty then [] else [cur]
  | p :: ps, cur =>
    let q := pyStripL p
    if q.isEmpty then chunkLoopL maxChars ps cur
    else if cur.length + q.length + 2 ≤ maxChars then
      chunkLoopL maxChars ps (if cur.isEmpty then q else cur ++ nl2 ++ q)
    else
      (if cur.isEmpty then [] else [cur]) ++
        (if q.length ≤ maxChars then chunkLoopL maxChars ps q
         else hardSlicesL q maxChars ++ chunkLoopL maxChars ps [])

/-- `chunk_text_by_chars` (`backend/utils.py`) on a character list. -/
def chunkTextByCharsL (cs : List Char) (maxChars : Nat) : List (List Char) :=
  if cs.isEmpty then [] else chunkLoopL maxChars (pySplitPar cs) []

/-- `chunk_text_by_chars(text, max_chars)` from `backend/utils.py`. -/
def chunk_text_by_chars (text : String) (maxChars : Nat := 3000) : List String :=
  (chunkTextByCharsL text.data maxChars).map (fun l => String.mk l)

/-- `safe_trim(text, max_chars)` from `backend/utils.py`. -/
def safe_trim (text : String) (maxChars : Nat := 20000) : String :=
  if text = "" then ""
  else if text.length ≤ maxChars then text
  else String.mk (text.data.take maxChars) ++ "\n\n[TRUNCATED]"

/-! ## `backend/rewrite.py`: data shapes -/

/-- Response headers, as `dict(resp.headers)`: string keys/values; keys
are unique in a real dict, lookup takes the first match. -/
abbrev Headers := List (String × String)

/-- The structured-failure return shape of the adapter: the Python
5-tuple `(None, status, body_preview, headers, client_error_detail)`
with the leading `None` tag left implicit. -/
structure FailTuple where
  status : Option Nat
  body_preview : String
  headers : Headers
  client_exc : Option String
deriving DecidableEq

/-- What `call_gemini_once` returns when it does not raise: a success
payload (a `PyVal`, because the REST parse can surface a non-string
leaf) or the failure tuple.  The Python discrimination
`isinstance(out, tuple) and out[0] is None` separates exactly these
two constructors. -/
inductive CallOnceOut where
  | text (v : PyVal)
  | fail (f : FailTuple)

/-- What one `requests.post` to the REST endpoint does: an HTTP
response (status, decoded body, headers) or a raised exception.  A
body that fails `resp.json()` decoding is represented as `.str` of
`resp.text` (the code treats both identically). -/
inductive RestNet where
  | response (status : Nat) (body : PyVal) (headers : Headers)
  | exc (e : String)

/-- The outside world as seen by ONE adapter attempt
(`call_gemini_once`): whether the `google-genai` import succeeded,
what `genai.Client()` does, what `client.models.generate_content`
followed by the `resp.text` extraction yields for a (model, prompt),
and what the REST POST yields for a (model, prompt).  Timeout and
thinking-budget are forwarded opaquely in the source and do not affect
control flow, so they are absorbed into these functions. -/
structure OnceEnv where
  sdkAvailable : Bool
  clientConstruct : Except String Unit
  sdkGenerate : String → String → Except String String
  rest : String → String → RestNet

/-- `_short_preview` on a string argument (`backend/rewrite.py` lines
58-65): truncate to `length` characters and append `"..."`. -/
def short_preview (s : String) (length : Nat := 2000) : String :=
  if s.length > length then String.mk (s.data.take length) ++ "..." else s

/-- `_short_preview` on a decoded body: strings pass through, anything
else is `json.dumps`-rendered first. -/
def shortPreviewVal (v : PyVal) (length : Nat := 2000) : String :=
  short_preview (match v with | .str s => s | v => jsonDumps v) length

/-! ## REST fallback path -/

/-- `d.get(k)` on a dict `PyVal`, with the `or default` idiom:
missing key or falsy value gives the default. -/
def pyGetOr (fs : List (String × PyVal)) (k : String) (dflt : PyVal) : PyVal :=
  match fs.lookup k with
  | some v => if v.truthy then v else dflt
  | none => dflt

/-- Outcome of the `candidates`-path of `_parse_gemini_rest_result`:
a value was returned, control fell through to the `"output"` check, or
a `TypeError`/`AttributeError` was raised (and will be caught by the
function's `except`, which returns `str(body)`). -/
inductive ParseStep where
  | found (v : PyVal)
  | fallthrough
  | raised

/-- The body of `if cands:` in `_parse_gemini_rest_result`
(`backend/rewrite.py` lines 148-158), on an already-truthy `cands`:
`first = cands[0]`; `content = first.get("content") or {}`;
`parts = content.get("parts") or []`; `p0 = parts[0]`; return
`p0["text"]` / `p0` when the isinstance checks pass, fall through
otherwise; indexing or `.get` on a non-indexable/non-dict raises. -/
def parseCands : PyVal → ParseStep
  | .list [] => .fallthrough
  | .list (first :: _) =>
    match first with
    | .obj ff =>
      match pyGetOr ff "content" (.obj []) with
      | .obj cf =>
        match pyGetOr cf "parts" (.list []) with
        | .list (p0 :: _) =>
          match p0 with
          | .obj pf =>
            match pf.lookup "text" with
            | some tv => .found tv
            | none => .fallthrough
          | .str s => .found (.str s)
          | _ => .fallthrough
        | _ => .fallthrough
      | _ => .fallthrough
    | _ => .raised
  | _ => .raised

/-- `_parse_gemini_rest_result(body)` (`backend/rewrite.py` lines
144-163).  Any exception inside is caught and yields `str(body)`. -/
def parse_gemini_rest_result (body : PyVal) : PyVal :=
  match body with
  | .obj fields =>
    let cands := pyGetOr fields "candidates" (.list [])
    match (if cands.truthy then parseCands cands else .fallthrough) with
    | .found v => v
    | .raised => .str (pyStr body)
    | .fallthrough =>
      match fields.lookup "output" with
      | some (.str s) => .str s
      | _ => .str (pyStr body)
  | _ => .str (pyStr body)

/-- `_post_gemini_rest` (`backend/rewrite.py` lines 126-142): returns
`(resp.ok, status, body, headers)`; `resp.ok` is `status < 400`; a
raised `requests` exception is captured as
`(False, None, "exception:...", {})`.  URL and payload construction
carry no observable state beyond (model, prompt) and are absorbed into
`env.rest`. -/
def post_gemini_rest (env : OnceEnv) (model prompt : String) :
    Bool × Option Nat × PyVal × Headers :=
  match env.rest model prompt with
  | .response st body hdrs => (decide (st < 400), some st, body, hdrs)
  | .exc e => (false, none, .str ("exception:" ++ e), [])

/-- `_call_gemini_rest_once` (`backend/rewrite.py` lines 165-179):
on `ok`, the parsed body (the parse never raises, so its inner
`except` branch is dead); otherwise the failure tuple
`(None, status, _short_preview(body), headers, None)`.  This path
never raises. -/
def call_gemini_rest_once (env : OnceEnv) (prompt model : String) : CallOnceOut :=
  match post_gemini_rest env model prompt with
  | (ok, status, body, headers) =>
    if ok then .text (parse_gemini_rest_result body)
    else .fail ⟨status, shortPreviewVal body, headers, none⟩

/-! ## SDK path and the unified single-attempt adapter -/

/-- The three things `_call_gemini_sdk_once` can return: Python `None`
(no client), a text string, or the failure tuple from its `except`. -/
inductive SdkOnce where
  | pyNone
  | text (s : String)
  | failTuple (f : FailTuple)

/-- `_call_gemini_sdk_once` (`backend/rewrite.py` lines 89-121).
`_genai_client_singleton()` is evaluated OUTSIDE the `try` block: when
`genai.Client()` raises, the exception propagates (`.error`).  When the
SDK import failed the singleton is `None` and the function returns
`None`.  Exceptions from `generate_content`/`resp.text` extraction are
caught and become `(None, None, _short_preview(repr(e)), {}, repr(e))`;
the nested `resp.text` fallbacks always end in a string and are folded
into `env.sdkGenerate`. -/
def call_gemini_sdk_once (env : OnceEnv) (prompt : String) (model : String) :
    Except String SdkOnce :=
  if env.sdkAvailable then
    match env.clientConstruct with
    | .error e => .error e
    | .ok _ =>
      match env.sdkGenerate model prompt with
      | .ok s => .ok (.text s)
      | .error e => .ok (.failTuple ⟨none, short_preview e, [], some e⟩)
  else .ok .pyNone

/-- `call_gemini_once` (`backend/rewrite.py` lines 182-191): when the
SDK import succeeded, call the SDK path; a `None` result falls through
to REST (dead in practice: with the import available the singleton is
never `None`), a tuple result is returned as-is (NO REST retry), any
other result is returned as `str(out)`.  When the import failed, go
straight to REST. -/
def call_gemini_once (env : OnceEnv) (prompt : String) (model : String) :
    Except String CallOnceOut :=
  if env.sdkAvailable then
    match call_gemini_sdk_once env prompt model with
    | .error e => .error e
    | .ok .pyNone => .ok (call_gemini_rest_once env prompt model)
    | .ok (.failTuple f) => .ok (.fail f)
    | .ok (.text s) => .ok (.text (.str s))
  else .ok (call_gemini_rest_once env prompt model)

/-! ## Retry wrapper -/

/-- `time.sleep(w)`: raises `ValueError` for a negative duration,
otherwise returns (the slept duration is recorded by the caller). -/
def pySleep (w : Rat) : Except String Unit :=
  if w < 0 then .error "ValueError: sleep length must be non-negative" else .ok ()

/-- The condition `status == 429 and headers` of
`call_gemini_with_retry` (line 208): an empty headers dict is falsy. -/
def is429WithHeaders (f : FailTuple) : Bool :=
  f.status == some 429 && !f.headers.isEmpty

/-- The condition `status and 400 <= status < 500` (line 216); a
`None` or `0` status is falsy (`400 <= s` already excludes `0`). -/
def isClientError : Option Nat → Bool
  | some s => decide (400 ≤ s) && decide (s < 500)
  | none => false

/-- Decimal value of a digit list. -/
def digitsVal (cs : List Char) : Nat :=
  cs.foldl (fun a c => a * 10 + (c.toNat - 48)) 0

/-- Models Python `float(ra)` on a `Retry-After` header value: strips
whitespace, then accepts an optionally signed decimal numeral with an
optional fractional part; anything else fails (is `none`).  Exotic
accepted spellings of Python floats (exponents, `inf`, `nan`,
underscores) are not modelled — no real `Retry-After` value takes
those forms, and no claim depends on them. -/
def pyFloat (s : String) : Option Rat :=
  let t := pyStripL s.data
  let sgn : Rat := match t with | '-' :: _ => -1 | _ => 1
  let body : List Char := match t with | '-' :: cs => cs | '+' :: cs => cs | cs => cs
  let ip := body.takeWhile Char.isDigit
  let rest := body.dropWhile Char.isDigit
  match rest with
  | [] => if ip.isEmpty then none else some (sgn * (digitsVal ip : Rat))
  | '.' :: fp =>
    if (!ip.isEmpty || !fp.isEmpty) && fp.all Char.isDigit then
      some (sgn * ((digitsVal ip : Rat) + (digitsVal fp : Rat) / ((10 : Rat) ^ fp.length)))
    else none
  | _ => none

/-- The wait computed in the 429 branch (lines 209-213):
`float(ra) if ra else backoff * attempt`, with an unparseable value
caught and replaced by `backoff * attempt`; an absent or empty
`Retry-After` is falsy. -/
def retryWait (headers : Headers) (backoff : Rat) (attempt : Nat) : Rat :=
  match headers.lookup "Retry-After" with
  | some ra =>
    if ra = "" then backoff * attempt
    else match pyFloat ra with
      | some w => w
      | none => backoff * attempt
  | none => backoff * attempt

/-- What one run of `call_gemini_with_retry` did: `result` is the
Python return value (`none` is Python `None`, possible when the loop
body never runs), `sleeps` the `time.sleep` durations in order, and
`calls` the number of `call_gemini_once` invocations. -/
structure RetryResult where
  result : Option CallOnceOut
  sleeps : List Rat
  calls : Nat

/-- The loop of `call_gemini_with_retry` (`backend/rewrite.py` lines
202-224) over the still-pending attempt numbers, with `last` the
current `last_resp` (only ever `None` or a failure tuple).
Branches, in source order: a 429 with non-empty headers sleeps the
hinted wait and continues; a truthy 4xx status returns the failure at
once; otherwise sleep `backoff * attempt` and continue if attempts
remain, else return the failure.  A success returns at once.  An
exception from the adapter (or from `time.sleep`) propagates. -/
def retryGo (adapter : Nat → Except String CallOnceOut) (tries : Nat) (backoff : Rat) :
    List Nat → Option FailTuple → Except String RetryResult
  | [], last => .ok ⟨last.map CallOnceOut.fail, [], 0⟩
  | attempt :: rest, _last =>
    match adapter attempt with
    | .error e => .error e
    | .ok (.text v) => .ok ⟨some (.text v), [], 1⟩
    | .ok (.fail f) =>
      if is429WithHeaders f then
        let wait := retryWait f.headers backoff attempt
        match pySleep wait with
        | .error e => .error e
        | .ok _ =>
          match retryGo adapter tries backoff rest (some f) with
          | .error e => .error e
          | .ok rr => .ok ⟨rr.result, wait :: rr.sleeps, rr.calls + 1⟩
      else if isClientError f.status then
        .ok ⟨some (.fail f), [], 1⟩
      else if attempt < tries then
        match pySleep (backoff * attempt) with
        | .error e => .error e
        | .ok _ =>
          match retryGo adapter tries backoff rest (some f) with
          | .error e => .error e
          | .ok rr => .ok ⟨rr.result, (backoff * attempt) :: rr.sleeps, rr.calls + 1⟩
      else
        .ok ⟨some (.fail f), [], 1⟩

/-- `call_gemini_with_retry` (`backend/rewrite.py` lines 194-224),
with the single-attempt adapter abstracted as a function of the
attempt number (`for attempt in range(1, tries + 1)`), so that a
changing outside world between attempts — or a test stub — is a choice
of `adapter`. -/
def call_gemini_with_retry (adapter : Nat → Except String CallOnceOut)
    (tries : Nat) (backoff : Rat) : Except String RetryResult :=
  retryGo adapter tries backoff (List.range' 1 tries) none

/-! ## Orchestrator: `rewrite_text` -/

/-- `build_prompt_chunk(text, tone)` (`backend/rewrite.py` lines
68-77). -/
def build_prompt_chunk (text tone : String) : String :=
  "Rewrite the following text to improve clarity, structure, and flow while preserving "
    ++ "all facts, numbers, and the original meaning. Be concise and do not add new information.\n\n"
    ++ "Tone: " ++ tone ++ "\n\n"
    ++ "Original:\n" ++ text ++ "\n\n"
    ++ "Rewritten:"

/-- One entry of the diagnostics list built by `rewrite_text`
(lines 249-257). -/
structure DiagEntry where
  part : Nat
  status : Option Nat
  body_preview : String
  headers : Headers
  fallback_info : Option String
deriving DecidableEq

/-- The configuration `rewrite_text` reads from the environment, at
its values at call time (source defaults: model `gemini-2.5-flash`,
3 tries, backoff 2.0, 3000 chars per chunk). -/
structure Config where
  model : String
  tries : Nat
  backoff : Rat
  chunkMax : Nat

/-- The source's default configuration (no overriding environment
variables). -/
def defaultConfig : Config := ⟨"gemini-2.5-flash", 3, 2, 3000⟩

/-- The retried remote call `rewrite_text` makes for chunk `i` with
text `p` (lines 237-245): `call_gemini_with_retry` applied to the
prompt built from the chunk and tone.  `oracle i a` is the outside
world at chunk `i`, attempt `a`. -/
def chunk_call (oracle : Nat → Nat → OnceEnv) (cfg : Config) (tone : String)
    (i : Nat) (p : String) : Except String RetryResult :=
  call_gemini_with_retry
    (fun a => call_gemini_once (oracle i a) (build_prompt_chunk p tone) cfg.model)
    cfg.tries cfg.backoff

/-- The per-chunk loop of `rewrite_text` (lines 236-261) over the
enumerated chunks, returning (outputs, any_success, diagnostics).  A
failure tuple appends a diagnostics entry and the original chunk text;
anything else is treated as the success payload and `.strip()`ed —
which raises `AttributeError` when the payload is `None` (a
zero-`tries` retry) or a non-string REST parse leaf. -/
def rewriteLoop (oracle : Nat → Nat → OnceEnv) (cfg : Config) (tone : String) :
    List (Nat × String) → Except String (List String × Bool × List DiagEntry)
  | [] => .ok ([], false, [])
  | (i, p) :: rest =>
    match chunk_call oracle cfg tone i p with
    | .error e => .error e
    | .ok rr =>
      match rr.result with
      | none => .error "AttributeError: NoneType has no attribute strip"
      | some (.fail f) =>
        match rewriteLoop oracle cfg tone rest with
        | .error e => .error e
        | .ok (outs, anySucc, diags) =>
          .ok (p :: outs, anySucc,
               ⟨i, f.status, f.body_preview, f.headers, f.client_exc⟩ :: diags)
      | some (.text (.str s)) =>
        match rewriteLoop oracle cfg tone rest with
        | .error e => .error e
        | .ok (outs, _any, diags) => .ok (pyStrip s :: outs, true, diags)
      | some (.text _) => .error "AttributeError: object has no attribute strip"

/-- `rewrite_text(text, tone)` (`backend/rewrite.py` lines 229-264):
trim, chunk, per-chunk retried call with fallback to the original
chunk text, blank-line join, all-failed flag `not any_success`, and
the diagnostics list. -/
def rewrite_text (oracle : Nat → Nat → OnceEnv) (cfg : Config)
    (text : String) (tone : String) :
    Except String (String × Bool × List DiagEntry) :=
  let t := safe_trim text 20000
  let parts := chunk_text_by_chars t cfg.chunkMax
  match rewriteLoop oracle cfg tone parts.enum with
  | .error e => .error e
  | .ok (outs, anySucc, diags) => .ok (pyJoinS "\n\n" outs, !anySucc, diags)

/-! ## Chunker lemmas -/

/-- The non-whitespace character sequence of a list (the "semantic
content" the spec's reconstruction property is about). -/
def visChars (l : List Char) : List Char :=
  l.filter (fun c => !isPyWhitespace c)

@[simp] theorem visChars_nil : visChars [] = [] := rfl

theorem visChars_append (a b : List Char) :
    visChars (a ++ b) = visChars a ++ visChars b := by
  simp [visChars]

theorem visChars_nl2 : visChars nl2 = [] := by decide

theorem visChars_dropWhile (l : List Char) :
    visChars (l.dropWhile isPyWhitespace) = visChars l := by
  induction l with
  | nil => rfl
  | cons c cs ih =>
    by_cases h : isPyWhitespace c
    · simp only [List.dropWhile, h, ih]
      simp [visChars, h]
    · simp only [List.dropWhile, h]

theorem visChars_reverse (l : List Char) :
    visChars l.reverse = (visChars l).reverse := by
  simp [visChars, List.filter_reverse]

theorem visChars_pyStripL (p : List Char) :
    visChars (pyStripL p) = visChars p := by
  unfold pyStripL
  rw [visChars_reverse, visChars_dropWhile, visChars_reverse, List.reverse_reverse,
    visChars_dropWhile]

theorem visChars_of_strip_empty (p : List Char) (h : pyStripL p = []) :
    visChars p = [] := by
  rw [← visChars_pyStripL, h]; rfl

theorem pySplitPar_ne_nil (cs : List Char) : pySplitPar cs ≠ []  := by
  induction cs using pySplitPar.induct with
  | case1 => simp [pySplitPar]
  | case2 rest ih => simp [pySplitPar]
  | case3 c rest h head tail heq ih =>
    rw [pySplitPar]
    · rw [heq]; simp
    · exact h
  | case4 c rest h heq ih =>
    rw [pySplitPar]
    · rw [heq]; simp
    · exact h

theorem pyJoinL_cons (sep : List Char) (x : List Char) (l : List (List Char)) (h : l ≠ []) :
    pyJoinL sep (x :: l) = x ++ sep ++ pyJoinL sep l := by
  cases l with
  | nil => exact absurd rfl h
  | cons y ys => rfl

theorem pyJoinL_splitPar (cs : List Char) : pyJoinL nl2 (pySplitPar cs) = cs := by
  induction cs using pySplitPar.induct with
  | case1 => rfl
  | case2 rest ih =>
    rw [pySplitPar, pyJoinL_cons nl2 [] _ (pySplitPar_ne_nil rest), ih]
    rfl
  | case3 c rest h head tail heq ih =>
    rw [pySplitPar]
    · rw [heq]
      rw [heq] at ih
      cases tail with
      | nil => simpa [pyJoinL] using ih
      | cons z zs =>
        rw [pyJoinL_cons nl2 (c :: head) (z :: zs) (by simp),
          pyJoinL_cons nl2 head (z :: zs) (by simp)] at *
        simp only [List.cons_append, List.append_assoc] at ih ⊢
        rw [ih]
    · exact h
  | case4 c rest h heq ih =>
    exact absurd heq (pySplitPar_ne_nil rest)

theorem hardSlicesFuel_mem (fuel : Nat) :
    ∀ (p : List Char) (m : Nat), 1 ≤ m → p.length ≤ fuel →
      ∀ C ∈ hardSlicesFuel fuel p m, C ≠ [] ∧ C.length ≤ m := by
  induction fuel with
  | zero => intro p m _ _ C hC; simp [hardSlicesFuel] at hC
  | succ fuel ih =>
    intro p m hm hlen C hC
    rw [hardSlicesFuel] at hC
    by_cases hp : p.isEmpty
    · rw [if_pos hp] at hC; simp at hC
    · rw [if_neg hp] at hC
      rcases List.mem_cons.mp hC with h | h
      · subst h
        constructor
        · have : p ≠ [] := by simpa [List.isEmpty_iff] using hp
          simp [List.take_eq_nil_iff, this]
          omega
        · simp [List.length_take]
      · refine ih (p.drop m) m hm ?_ C h
        have : p ≠ [] := by simpa [List.isEmpty_iff] using hp
        have h1 : 1 ≤ p.length := by
          cases p with | nil => exact absurd rfl this | cons a as => simp
        simp [List.length_drop]
        omega

theorem hardSlicesL_mem (p : List Char) (m : Nat) (hm : 1 ≤ m) :
    ∀ C ∈ hardSlicesL p m, C ≠ [] ∧ C.length ≤ m := by
  intro C hC
  rw [hardSlicesL, if_neg (by omega)] at hC
  exact hardSlicesFuel_mem p.length p m hm le_rfl C hC

theorem chunkLoopL_mem (m : Nat) (hm : 1 ≤ m) :
    ∀ (ps : List (List Char)) (cur : List Char), cur.length ≤ m →
      ∀ C ∈ chunkLoopL m ps cur, C ≠ [] ∧ C.length ≤ m := by
  intro ps
  induction ps with
  | nil =>
    intro cur hcur C hC
    rw [chunkLoopL] at hC
    by_cases h : cur.isEmpty
    · rw [if_pos h] at hC; simp at hC
    · rw [if_neg h] at hC
      rcases List.mem_singleton.mp hC with rfl
      exact ⟨by simpa [List.isEmpty_iff] using h, hcur⟩
  | cons p ps ih =>
    intro cur hcur C hC
    rw [chunkLoopL] at hC
    set q := pyStripL p with hq
    by_cases h1 : q.isEmpty
    · rw [if_pos h1] at hC
      exact ih cur hcur C hC
    · rw [if_neg h1] at hC
      by_cases h2 : cur.length + q.length + 2 ≤ m
      · rw [if_pos h2] at hC
        refine ih _ ?_ C hC
        by_cases h3 : cur.isEmpty
        · rw [if_pos h3]; omega
        · rw [if_neg h3]
          simp [nl2]
          omega
      · rw [if_neg h2] at hC
        rcases List.mem_append.mp hC with h | h
        · by_cases h3 : cur.isEmpty
          · rw [if_pos h3] at h; simp at h
          · rw [if_neg h3] at h
            rcases List.mem_singleton.mp h with rfl
            exact ⟨by simpa [List.isEmpty_iff] using h3, hcur⟩
        · by_cases h4 : q.length ≤ m
          · rw [if_pos h4] at h
            exact ih q h4 C h
          · rw [if_neg h4] at h
            rcases List.mem_append.mp h with h | h
            · exact hardSlicesL_mem q m hm C h
            · exact ih [] (by simp) C h

/-- C8 helper: the chunker on character lists produces non-empty
chunks of length at most `m`. -/
theorem chunkTextByCharsL_mem (cs : List Char) (m : Nat) (hm : 1 ≤ m) :
    ∀ C ∈ chunkTextByCharsL cs m, C ≠ [] ∧ C.length ≤ m := by
  intro C hC
  rw [chunkTextByCharsL] at hC
  by_cases h : cs.isEmpty
  · rw [if_pos h] at hC; simp at hC
  · rw [if_neg h] at hC
    exact chunkLoopL_mem m hm (pySplitPar cs) [] (by simp) C hC

theorem visChars_pyJoinL_cons (p : List Char) (ps : List (List Char)) :
    visChars (pyJoinL nl2 (p :: ps)) = visChars p ++ visChars (pyJoinL nl2 ps) := by
  cases ps with
  | nil => simp [pyJoinL, visChars]
  | cons y ys =>
    rw [pyJoinL_cons nl2 p (y :: ys) (by simp), visChars_append, visChars_append,
      visChars_nl2]
    simp

theorem visChars_pyJoinL_append (l1 l2 : List (List Char)) :
    visChars (pyJoinL nl2 (l1 ++ l2)) =
      visChars (pyJoinL nl2 l1) ++ visChars (pyJoinL nl2 l2) := by
  induction l1 with
  | nil => simp [pyJoinL]
  | cons x xs ih =>
    rw [List.cons_append, visChars_pyJoinL_cons, ih, visChars_pyJoinL_cons,
      List.append_assoc]

theorem visChars_pyJoinL_join (l : List (List Char)) :
    visChars (pyJoinL nl2 l) = visChars l.flatten := by
  induction l with
  | nil => rfl
  | cons x xs ih =>
    rw [visChars_pyJoinL_cons, ih, List.flatten_cons, visChars_append]

theorem hardSlicesFuel_join (fuel : Nat) :
    ∀ (p : List Char) (m : Nat), 1 ≤ m → p.length ≤ fuel →
      (hardSlicesFuel fuel p m).flatten = p := by
  induction fuel with
  | zero =>
    intro p m hm hlen
    have : p = [] := List.length_eq_zero.mp (by omega)
    subst this; rfl
  | succ fuel ih =>
    intro p m hm hlen
    rw [hardSlicesFuel]
    by_cases hp : p.isEmpty
    · rw [if_pos hp]
      simp [List.isEmpty_iff] at hp
      simp [hp]
    · rw [if_neg hp, List.flatten_cons, ih (p.drop m) m hm ?_, List.take_append_drop]
      have : p ≠ [] := by simpa [List.isEmpty_iff] using hp
      have h1 : 1 ≤ p.length := by
        cases p with | nil => exact absurd rfl this | cons a as => simp
      simp [List.length_drop]
      omega

theorem hardSlicesL_join (p : List Char) (m : Nat) (hm : 1 ≤ m) :
    (hardSlicesL p m).flatten = p := by
  rw [hardSlicesL, if_neg (by omega)]
  exact hardSlicesFuel_join p.length p m hm le_rfl

theorem chunkLoopL_vis (m : Nat) (hm : 1 ≤ m) :
    ∀ (ps : List (List Char)) (cur : List Char),
      visChars (pyJoinL nl2 (chunkLoopL m ps cur)) =
        visChars cur ++ visChars (pyJoinL nl2 ps) := by
  intro ps
  induction ps with
  | nil =>
    intro cur
    rw [chunkLoopL]
    by_cases h : cur.isEmpty
    · rw [if_pos h]
      simp [List.isEmpty_iff] at h
      simp [h, pyJoinL, visChars]
    · rw [if_neg h]
      simp [pyJoinL, visChars]
  | cons p ps ih =>
    intro cur
    rw [chunkLoopL, visChars_pyJoinL_cons]
    set q := pyStripL p with hq
    have hvisq : visChars q = visChars p := visChars_pyStripL p
    by_cases h1 : q.isEmpty
    · rw [if_pos h1, ih]
      have : visChars p = [] := by
        rw [← hvisq]
        simp [List.isEmpty_iff] at h1
        simp [h1, visChars]
      rw [this]
      simp
    · rw [if_neg h1]
      by_cases h2 : cur.length + q.length + 2 ≤ m
      · rw [if_pos h2, ih]
        by_cases h3 : cur.isEmpty
        · rw [if_pos h3]
          simp [List.isEmpty_iff] at h3
          simp [h3, hvisq]
        · rw [if_neg h3, visChars_append, visChars_append, visChars_nl2, hvisq]
          simp
      · rw [if_neg h2, visChars_pyJoinL_append]
        have hpre : visChars (pyJoinL nl2 (if cur.isEmpty then [] else [cur])) = visChars cur := by
          by_cases h3 : cur.isEmpty
          · rw [if_pos h3]
            simp [List.isEmpty_iff] at h3
            simp [h3, pyJoinL, visChars]
          · rw [if_neg h3]; rfl
        rw [hpre]
        by_cases h4 : q.length ≤ m
        · rw [if_pos h4, ih, hvisq]
        · rw [if_neg h4, visChars_pyJoinL_append, ih, visChars_pyJoinL_join,
            hardSlicesL_join q m hm, hvisq]
          simp [visChars]

theorem chunkTextByCharsL_vis (cs : List Char) (m : Nat) (hm : 1 ≤ m) :
    visChars (pyJoinL nl2 (chunkTextByCharsL cs m)) = visChars cs := by
  rw [chunkTextByCharsL]
  by_cases h : cs.isEmpty
  · rw [if_pos h]
    simp [List.isEmpty_iff] at h
    simp [h, pyJoinL]
  · rw [if_neg h, chunkLoopL_vis m hm, visChars_nil, List.nil_append,
      pyJoinL_splitPar cs]

theorem String_mk_data (l : List Char) : (String.mk l).data = l := rfl

theorem String_mk_ne_empty (l : List Char) (h : l ≠ []) : String.mk l ≠ "" := by
  intro hc
  exact h (congrArg String.data hc)

/-- C8: for every text `T` and every `M > 0`, every chunk produced by
`chunk_text_by_chars(T, M)` is a non-empty string of length at most
`M` — including chunks from the hard-cut path for single paragraphs
longer than `M`. -/
theorem chunk_text_by_chars_nonempty_bounded (T : String) (M : Nat) (hM : 0 < M) :
    ∀ C ∈ chunk_text_by_chars T M, C ≠ "" ∧ C.length ≤ M := by
  intro C hC
  rw [chunk_text_by_chars] at hC
  rcases List.mem_map.mp hC with ⟨l, hl, rfl⟩
  obtain ⟨h1, h2⟩ := chunkTextByCharsL_mem T.data M hM l hl
  exact ⟨String_mk_ne_empty l h1, h2⟩

/-- Witness for C8 at a concrete input that exercises the hard-cut
path: `chunk_text_by_chars "abcdefgh" 3 = ["abc", "def", "gh"]`. -/
theorem chunk_text_by_chars_nonempty_bounded_witness :
    0 < 3 ∧ (("abc" : String) ≠ "" ∧ ("abc" : String).length ≤ 3) :=
  ⟨by decide, chunk_text_by_chars_nonempty_bounded "abcdefgh" 3 (by decide) "abc" (by decide)⟩

/-- C9: for every text `T` and every `M > 0`, joining the chunks of
`chunk_text_by_chars(T, M)` with the blank-line separator preserves
exactly the non-whitespace character sequence of `T` (nothing dropped,
nothing added, original order); only whitespace at paragraph
boundaries is normalized. -/
theorem chunk_text_by_chars_reconstruction (T : String) (M : Nat) (hM : 0 < M) :
    visChars (pyJoinS "\n\n" (chunk_text_by_chars T M)).data = visChars T.data := by
  rw [chunk_text_by_chars, pyJoinS]
  rw [String_mk_data, List.map_map]
  have hmaps : (String.data ∘ fun l => String.mk l) = id := by
    funext l; rfl
  rw [hmaps, List.map_id]
  have hsep : ("\n\n" : String).data = nl2 := by decide
  rw [hsep]
  exact chunkTextByCharsL_vis T.data M hM

/-- Witness for C9 at a concrete input (two paragraphs, one hard-cut):
chunking then rejoining keeps exactly the non-whitespace characters. -/
theorem chunk_text_by_chars_reconstruction_witness :
    0 < 3 ∧ visChars (pyJoinS "\n\n" (chunk_text_by_chars " a \n\nbcde" 3)).data =
      visChars (" a \n\nbcde" : String).data :=
  ⟨by decide, chunk_text_by_chars_reconstruction " a \n\nbcde" 3 (by decide)⟩

/-! ## Claims about the adapter and the retry controller -/

/-- A concrete environment for exercising the adapter: the SDK import
succeeded, the client constructs, the SDK call itself raises `boom`,
and the REST endpoint would answer 200 with a well-formed candidates
body saying `hi`. -/
def envSdkRaises : OnceEnv :=
  ⟨true, .ok (), fun _ _ => .error "boom",
   fun _ _ => .response 200
     (.obj [("candidates", .list [.obj [("content",
        .obj [("parts", .list [.obj [("text", .str "hi")]])])]])]) []⟩

/-- C2 counterexample: when the native SDK path raises during the
call, `call_gemini_once` returns the failure tuple directly and does
NOT retry the request over HTTP — even though the HTTP transport
would have succeeded (second conjunct). -/
theorem call_gemini_once_no_rest_retry_on_sdk_raise :
    call_gemini_once envSdkRaises "p" "m" =
      .ok (.fail ⟨none, "boom", [], some "boom"⟩) ∧
    call_gemini_rest_once envSdkRaises "p" "m" = .text (.str "hi") :=
  ⟨rfl, rfl⟩

/-- C2 (amended): the transport policy `call_gemini_once` actually
implements.  (1) With the SDK module unavailable, the raw-HTTP
transport answers.  (2) With the SDK module available, the result
never depends on the HTTP transport — no HTTP fallback happens.
(3) When the native client cannot be constructed, the exception
propagates to the caller.  (4) When the native call itself raises, the
uniform failure shape `(None, None, preview, {}, detail)` is returned
without an HTTP retry.  (5) A native success is returned as a string
success. -/
theorem call_gemini_once_transport_policy (env : OnceEnv) (prompt model : String)
    (restF : String → String → RestNet) :
    (env.sdkAvailable = false →
      call_gemini_once env prompt model = .ok (call_gemini_rest_once env prompt model)) ∧
    (env.sdkAvailable = true →
      call_gemini_once (OnceEnv.mk true env.clientConstruct env.sdkGenerate restF)
          prompt model =
        call_gemini_once env prompt model) ∧
    (∀ e, env.sdkAvailable = true → env.clientConstruct = .error e →
      call_gemini_once env prompt model = .error e) ∧
    (∀ e, env.sdkAvailable = true → env.clientConstruct = .ok () →
      env.sdkGenerate model prompt = .error e →
      call_gemini_once env prompt model =
        .ok (.fail ⟨none, short_preview e, [], some e⟩)) ∧
    (∀ s, env.sdkAvailable = true → env.clientConstruct = .ok () →
      env.sdkGenerate model prompt = .ok s →
      call_gemini_once env prompt model = .ok (.text (.str s))) := by
  obtain ⟨avail, ctor, gen, rest⟩ := env
  refine ⟨?_, ?_, ?_, ?_, ?_⟩
  · intro h
    subst h
    rfl
  · intro h
    subst h
    rw [call_gemini_once, call_gemini_once]
    simp only [if_true]
    rw [call_gemini_sdk_once, call_gemini_sdk_once]
    simp only [if_true]
    cases ctor with
    | error e => rfl
    | ok u =>
      cases gen model prompt with
      | ok s => rfl
      | error e => rfl
  · intro e h hc
    subst h
    cases hc
    rfl
  · intro e h hc hg
    subst h
    cases hc
    dsimp only at hg
    rw [call_gemini_once]
    simp only [if_true]
    rw [call_gemini_sdk_once]
    simp only [if_true, hg]
  · intro s h hc hg
    subst h
    cases hc
    dsimp only at hg
    rw [call_gemini_once]
    simp only [if_true]
    rw [call_gemini_sdk_once]
    simp only [if_true, hg]

/-- Witness for C2 (amended), conjunct (4) at `envSdkRaises`: the
native raise is captured as a uniform failure. -/
theorem call_gemini_once_transport_policy_witness :
    call_gemini_once envSdkRaises "p" "m" =
      .ok (.fail ⟨none, short_preview "boom", [], some "boom"⟩) :=
  (call_gemini_once_transport_policy envSdkRaises "p" "m"
    (fun _ _ => .exc "x")).2.2.2.1 "boom" rfl rfl rfl

/-- A 429 failure with an EMPTY headers mapping. -/
def fail429NoHeaders : FailTuple := ⟨some 429, "rate limited", [], none⟩

/-- C3 counterexample: an attempt yielding a 429 Failure whose headers
mapping is empty is NOT retried: with three attempts configured, the
controller invokes the adapter exactly once, never sleeps, and returns
the 429 immediately like a terminal client error (because
`status == 429 and headers` is false for an empty dict, the 429 falls
into the 4xx branch). -/
theorem retry_429_empty_headers_immediate :
    call_gemini_with_retry (fun _ => .ok (.fail fail429NoHeaders)) 3 2 =
      .ok ⟨some (.fail fail429NoHeaders), [], 1⟩ := rfl

/-- C3 (amended): an attempt that yields a 429 Failure with a
NON-empty headers mapping is treated as transient: the controller
sleeps `retryWait` (the parsed non-empty `Retry-After` value when
parseable, else `backoff * attempt`), consumes one attempt slot
(`calls + 1`), and continues with the remaining attempts; a 429 with
an empty headers mapping is instead returned immediately (see the
counterexample).  The wait must be non-negative, else `time.sleep`
itself raises. -/
theorem retry_429_with_headers_retries (adapter : Nat → Except String CallOnceOut)
    (tries : Nat) (backoff : Rat) (attempt : Nat) (rest : List Nat)
    (last : Option FailTuple) (f : FailTuple)
    (hf : adapter attempt = .ok (.fail f)) (h429 : f.status = some 429)
    (hh : f.headers ≠ []) (hw : 0 ≤ retryWait f.headers backoff attempt) :
    retryGo adapter tries backoff (attempt :: rest) last =
      (match retryGo adapter tries backoff rest (some f) with
       | .error e => .error e
       | .ok rr =>
         .ok ⟨rr.result, retryWait f.headers backoff attempt :: rr.sleeps, rr.calls + 1⟩) := by
  have h1 : is429WithHeaders f = true := by
    simp [is429WithHeaders, h429, hh]
  rw [retryGo, hf]
  simp only [h1, if_true]
  rw [pySleep, if_neg (by exact not_lt.mpr hw)]

/-- The adapter stub for the C3 witness: first attempt rate-limited
with a hint-free but non-empty headers dict, second attempt succeeds. -/
def adC3 : Nat → Except String CallOnceOut := fun a =>
  if a = 1 then .ok (.fail ⟨some 429, "rl", [("X-Info", "slow")], none⟩)
  else .ok (.text (.str "ok"))

/-- Witness for C3 (amended) at a concrete 2-attempt run. -/
theorem retry_429_with_headers_retries_witness :
    retryGo adC3 2 2 [1, 2] none =
      (match retryGo adC3 2 2 [2] (some ⟨some 429, "rl", [("X-Info", "slow")], none⟩) with
       | .error e => .error e
       | .ok rr =>
         .ok ⟨rr.result, retryWait [("X-Info", "slow")] 2 1 :: rr.sleeps, rr.calls + 1⟩) :=
  retry_429_with_headers_retries adC3 2 2 1 [2] none _ rfl rfl (by simp)
    (by
      have hbeq : (("Retry-After" : String) == "X-Info") = false := by decide
      simp only [retryWait, List.lookup, hbeq]
      norm_num)

/-- A terminal 404 failure. -/
def fail404 : FailTuple := ⟨some 404, "not found", [], none⟩

/-- C6 counterexample: with `tries = 0` configured, the adapter is
invoked ZERO times (not exactly once) and the controller returns
Python `None` rather than the 404 failure — the loop body never
runs. -/
theorem retry_client_error_zero_tries :
    call_gemini_with_retry (fun _ => .ok (.fail fail404)) 0 2 = .ok ⟨none, [], 0⟩ := rfl

/-- C6 (amended): if the adapter always returns a Failure whose status
is in 400–499 and not 429, then for every `tries ≥ 1` the controller
invokes the adapter exactly once, never sleeps, and returns that
failure immediately. -/
theorem retry_client_error_single_attempt (adapter : Nat → Except String CallOnceOut)
    (tries : Nat) (backoff : Rat) (f : FailTuple) (s : Nat)
    (had : ∀ n, adapter n = .ok (.fail f)) (hst : f.status = some s)
    (h4 : 400 ≤ s) (h5 : s < 500) (h9 : s ≠ 429) (ht : 1 ≤ tries) :
    call_gemini_with_retry adapter tries backoff = .ok ⟨some (.fail f), [], 1⟩ := by
  obtain ⟨k, rfl⟩ : ∃ k, tries = k + 1 := ⟨tries - 1, by omega⟩
  have hr : List.range' 1 (k + 1) = 1 :: List.range' 2 k := rfl
  have h1 : is429WithHeaders f = false := by
    simp [is429WithHeaders, hst]
    intro hc
    exact absurd (by omega : s = 429) h9
  have h2 : isClientError f.status = true := by
    simp [isClientError, hst]
    omega
  rw [call_gemini_with_retry, hr, retryGo, had 1]
  simp only [h1, h2, Bool.false_eq_true, if_false, if_true]

/-- Witness for C6 (amended): a constant-404 stub with five configured
tries is invoked exactly once. -/
theorem retry_client_error_single_attempt_witness :
    call_gemini_with_retry (fun _ => .ok (.fail fail404)) 5 2 =
      .ok ⟨some (.fail fail404), [], 1⟩ :=
  retry_client_error_single_attempt _ 5 2 fail404 404 (fun _ => rfl) rfl
    (by decide) (by decide) (by decide) (by decide)

/-- A transient 500 failure. -/
def fail500 : FailTuple := ⟨some 500, "server error", [], none⟩

/-- C7 counterexample: with `tries = 0` configured, the controller
performs zero attempts and returns Python `None` — NOT the last
failure, since there is none. -/
theorem retry_server_error_zero_tries :
    call_gemini_with_retry (fun _ => .ok (.fail fail500)) 0 2 = .ok ⟨none, [], 0⟩ := rfl

/-- Helper for C7: on a constant 500-failure adapter, the retry loop
over attempts `a, a+1, …, tries` (with `a + k = tries + 1`, `k ≥ 1`
pending attempts) performs all `k` attempts, sleeping
`backoff * attempt` after each non-final one, and returns the
failure. -/
theorem retryGo_server_error (adapter : Nat → Except String CallOnceOut)
    (tries : Nat) (backoff : Rat) (f : FailTuple)
    (had : ∀ n, adapter n = .ok (.fail f)) (hst : f.status = some 500)
    (hb : 0 ≤ backoff) :
    ∀ (k a : Nat) (last : Option FailTuple), 1 ≤ k → a + k = tries + 1 →
      retryGo adapter tries backoff (List.range' a k) last =
        .ok ⟨some (.fail f), (List.range' a (k - 1)).map (fun n => backoff * n), k⟩ := by
  have h1 : is429WithHeaders f = false := by simp [is429WithHeaders, hst]
  have h2 : isClientError f.status = false := by simp [isClientError, hst]
  intro k
  induction k with
  | zero => intro a last h hk; omega
  | succ k ih =>
    intro a last h hk
    have hr : List.range' a (k + 1) = a :: List.range' (a + 1) k := rfl
    rw [hr, retryGo, had a]
    simp only [h1, h2, Bool.false_eq_true, if_false]
    cases k with
    | zero =>
      rw [if_neg (by omega : ¬a < tries)]
      rfl
    | succ k2 =>
      rw [if_pos (by omega : a < tries)]
      rw [pySleep, if_neg (not_lt.mpr (mul_nonneg hb (Nat.cast_nonneg a)))]
      rw [ih (a + 1) (some f) (by omega) (by omega)]
      rfl

/-- C7 (amended): if the adapter always returns a 500 Failure then,
for every `tries ≥ 1` and non-negative backoff, the controller invokes
the adapter exactly `tries` times, sleeps `backoff * attempt` seconds
after each attempt except the last, and returns the last failure. -/
theorem retry_server_error_exhausts (adapter : Nat → Except String CallOnceOut)
    (tries : Nat) (backoff : Rat) (f : FailTuple)
    (had : ∀ n, adapter n = .ok (.fail f)) (hst : f.status = some 500)
    (hb : 0 ≤ backoff) (ht : 1 ≤ tries) :
    call_gemini_with_retry adapter tries backoff =
      .ok ⟨some (.fail f), (List.range' 1 (tries - 1)).map (fun n => backoff * n), tries⟩ := by
  rw [call_gemini_with_retry]
  exact retryGo_server_error adapter tries backoff f had hst hb tries 1 none ht (by omega)

/-- Witness for C7 (amended): a constant-500 stub with three tries is
invoked three times, sleeping after attempts 1 and 2. -/
theorem retry_server_error_exhausts_witness :
    call_gemini_with_retry (fun _ => .ok (.fail fail500)) 3 2 =
      .ok ⟨some (.fail fail500), (List.range' 1 2).map (fun n => (2 : Rat) * n), 3⟩ :=
  retry_server_error_exhausts _ 3 2 fail500 (fun _ => rfl) rfl (by norm_num) (by decide)

/-! ## Orchestrator lemmas and claims -/

/-- Whether the retried call for enumerated chunk `(i, p)` returned a
success payload. -/
def chunkSucceeded (oracle : Nat → Nat → OnceEnv) (cfg : Config) (tone : String) :
    Nat × String → Bool
  | (i, p) =>
    match chunk_call oracle cfg tone i p with
    | .ok rr =>
      match rr.result with
      | some (.text _) => true
      | _ => false
    | .error _ => false

/-- The contribution enumerated chunk `(i, p)` makes to the
reassembled output: the stripped success payload, or the original
chunk text on failure. -/
def chunkContribution (oracle : Nat → Nat → OnceEnv) (cfg : Config) (tone : String) :
    Nat × String → String
  | (i, p) =>
    match chunk_call oracle cfg tone i p with
    | .ok rr =>
      match rr.result with
      | some (.text (.str s)) => pyStrip s
      | _ => p
    | .error _ => p

/-- The diagnostics entry enumerated chunk `(i, p)` produces when its
retried call failed. -/
def chunkDiag (oracle : Nat → Nat → OnceEnv) (cfg : Config) (tone : String) :
    Nat × String → Option DiagEntry
  | (i, p) =>
    match chunk_call oracle cfg tone i p with
    | .ok rr =>
      match rr.result with
      | some (.fail f) => some ⟨i, f.status, f.body_preview, f.headers, f.client_exc⟩
      | _ => none
    | .error _ => none

/-- Master characterization of the per-chunk loop: whenever it returns
(no exception), its outputs are the per-chunk contributions in order,
its flag is the disjunction of per-chunk successes, and its
diagnostics are the per-chunk entries of the failed chunks in order. -/
theorem rewriteLoop_eq (oracle : Nat → Nat → OnceEnv) (cfg : Config) (tone : String) :
    ∀ (L : List (Nat × String)) (outs : List String) (anySucc : Bool)
      (diags : List DiagEntry),
      rewriteLoop oracle cfg tone L = .ok (outs, anySucc, diags) →
      outs = L.map (chunkContribution oracle cfg tone) ∧
      anySucc = L.any (chunkSucceeded oracle cfg tone) ∧
      diags = L.filterMap (chunkDiag oracle cfg tone) := by
  intro L
  induction L with
  | nil =>
    intro outs a d h
    rw [rewriteLoop] at h
    simp only [Except.ok.injEq, Prod.mk.injEq] at h
    obtain ⟨h1, h2, h3⟩ := h
    subst h1; subst h2; subst h3
    exact ⟨rfl, rfl, rfl⟩
  | cons ip L ih =>
    intro outs a d h
    obtain ⟨i, p⟩ := ip
    rw [rewriteLoop] at h
    cases hcc : chunk_call oracle cfg tone i p with
    | error e => rw [hcc] at h; dsimp only at h; cases h
    | ok rr =>
      rw [hcc] at h
      dsimp only at h
      cases hres : rr.result with
      | none => rw [hres] at h; dsimp only at h; cases h
      | some out =>
        cases out with
        | fail f =>
          rw [hres] at h
          dsimp only at h
          cases hrec : rewriteLoop oracle cfg tone L with
          | error e => rw [hrec] at h; dsimp only at h; cases h
          | ok t =>
            obtain ⟨outs2, any2, diags2⟩ := t
            rw [hrec] at h
            dsimp only at h
            simp only [Except.ok.injEq, Prod.mk.injEq] at h
            obtain ⟨ho, ha, hd⟩ := h
            obtain ⟨iho, iha, ihd⟩ := ih outs2 any2 diags2 hrec
            subst ho; subst ha; subst hd
            refine ⟨?_, ?_, ?_⟩
            · rw [List.map_cons, ← iho]
              congr 1
              simp [chunkContribution, hcc, hres]
            · rw [List.any_cons, ← iha]
              have hcs : chunkSucceeded oracle cfg tone (i, p) = false := by
                simp [chunkSucceeded, hcc, hres]
              rw [hcs]
              simp
            · rw [List.filterMap_cons, ← ihd]
              have hcd : chunkDiag oracle cfg tone (i, p) =
                  some ⟨i, f.status, f.body_preview, f.headers, f.client_exc⟩ := by
                simp [chunkDiag, hcc, hres]
              rw [hcd]
        | text v =>
          cases v with
          | str s =>
            rw [hres] at h
            dsimp only at h
            cases hrec : rewriteLoop oracle cfg tone L with
            | error e => rw [hrec] at h; dsimp only at h; cases h
            | ok t =>
              obtain ⟨outs2, any2, diags2⟩ := t
              rw [hrec] at h
              dsimp only at h
              simp only [Except.ok.injEq, Prod.mk.injEq] at h
              obtain ⟨ho, ha, hd⟩ := h
              obtain ⟨iho, iha, ihd⟩ := ih outs2 any2 diags2 hrec
              subst ho; subst ha; subst hd
              refine ⟨?_, ?_, ?_⟩
              · rw [List.map_cons, ← iho]
                congr 1
                simp [chunkContribution, hcc, hres]
              · have hcs : chunkSucceeded oracle cfg tone (i, p) = true := by
                  simp [chunkSucceeded, hcc, hres]
                rw [List.any_cons, hcs]
                simp
              · rw [List.filterMap_cons, ← ihd]
                have hcd : chunkDiag oracle cfg tone (i, p) = none := by
                  simp [chunkDiag, hcc, hres]
                rw [hcd]
          | int n => rw [hres] at h; dsimp only at h; cases h
          | bool b => rw [hres] at h; dsimp only at h; cases h
          | null => rw [hres] at h; dsimp only at h; cases h
          | list xs => rw [hres] at h; dsimp only at h; cases h
          | obj fs => rw [hres] at h; dsimp only at h; cases h

/-- C4: whenever `rewrite_text` returns (its configured chunk size
being positive, as any real configuration has), the returned flag is
the negation of "some chunk's retried remote call succeeded" — i.e.
it is true iff ZERO chunks succeeded, and false as soon as at least
one chunk's call succeeds. -/
theorem rewrite_text_all_failed_flag (oracle : Nat → Nat → OnceEnv) (cfg : Config)
    (text tone out : String) (flag : Bool) (diags : List DiagEntry)
    (_hM : 1 ≤ cfg.chunkMax)
    (h : rewrite_text oracle cfg text tone = .ok (out, flag, diags)) :
    flag = !((chunk_text_by_chars (safe_trim text 20000) cfg.chunkMax).enum.any
      (chunkSucceeded oracle cfg tone)) := by
  rw [rewrite_text] at h
  cases hrec : rewriteLoop oracle cfg tone
      (chunk_text_by_chars (safe_trim text 20000) cfg.chunkMax).enum with
  | error e => rw [hrec] at h; dsimp only at h; cases h
  | ok t =>
    obtain ⟨outs, anySucc, diags2⟩ := t
    rw [hrec] at h
    dsimp only at h
    simp only [Except.ok.injEq, Prod.mk.injEq] at h
    obtain ⟨ho, hf, hd⟩ := h
    obtain ⟨-, iha, -⟩ := rewriteLoop_eq oracle cfg tone _ outs anySucc diags2 hrec
    rw [← hf, iha]

/-- C5: whenever `rewrite_text` returns, the returned text is the
blank-line join, in original chunk order, of one contribution per
chunk — the stripped remote output for a chunk whose retried call
succeeded, the original chunk text for a failed chunk — and the
diagnostics list has exactly one entry per failed chunk, in chunk
order, carrying that chunk's index and failure details. -/
theorem rewrite_text_composition (oracle : Nat → Nat → OnceEnv) (cfg : Config)
    (text tone out : String) (flag : Bool) (diags : List DiagEntry)
    (_hM : 1 ≤ cfg.chunkMax)
    (h : rewrite_text oracle cfg text tone = .ok (out, flag, diags)) :
    out = pyJoinS "\n\n" ((chunk_text_by_chars (safe_trim text 20000) cfg.chunkMax).enum.map
        (chunkContribution oracle cfg tone)) ∧
    diags = (chunk_text_by_chars (safe_trim text 20000) cfg.chunkMax).enum.filterMap
        (chunkDiag oracle cfg tone) := by
  rw [rewrite_text] at h
  cases hrec : rewriteLoop oracle cfg tone
      (chunk_text_by_chars (safe_trim text 20000) cfg.chunkMax).enum with
  | error e => rw [hrec] at h; dsimp only at h; cases h
  | ok t =>
    obtain ⟨outs, anySucc, diags2⟩ := t
    rw [hrec] at h
    dsimp only at h
    simp only [Except.ok.injEq, Prod.mk.injEq] at h
    obtain ⟨ho, hf, hd⟩ := h
    obtain ⟨iho, -, ihd⟩ := rewriteLoop_eq oracle cfg tone _ outs anySucc diags2 hrec
    subst hd
    exact ⟨by rw [← ho, iho], ihd⟩

/-- Concrete configuration for the C4/C5 witnesses: chunk size 5. -/
def cfgW : Config := ⟨"m", 3, 2, 5⟩

/-- Witness environment: the SDK path succeeds with `" R "`. -/
def envOKW : OnceEnv := ⟨true, .ok (), fun _ _ => .ok " R ", fun _ _ => .exc "down"⟩

/-- Witness environment: no SDK, the REST call answers 404. -/
def env404W : OnceEnv :=
  ⟨false, .ok (), fun _ _ => .error "x", fun _ _ => .response 404 (.str "nf") [("a", "b")]⟩

/-- Witness oracle: chunk 0 succeeds, all later chunks fail. -/
def orW : Nat → Nat → OnceEnv := fun i _ => if i = 0 then envOKW else env404W

/-- Witness for C4: on `"aaa\n\nbbb"` (two chunks at size 5) with
chunk 0 succeeding and chunk 1 failing, the returned flag is false. -/
theorem rewrite_text_all_failed_flag_witness :
    (false : Bool) = !((chunk_text_by_chars (safe_trim "aaa\n\nbbb" 20000) cfgW.chunkMax).enum.any
      (chunkSucceeded orW cfgW "T")) :=
  rewrite_text_all_failed_flag orW cfgW "aaa\n\nbbb" "T" "R\n\nbbb" false
    [⟨1, some 404, "nf", [("a", "b")], none⟩] (by decide) rfl

/-- Witness for C5: same run; the output is the join of the stripped
success and the original failed chunk, and the diagnostics list is the
one entry of the failed chunk. -/
theorem rewrite_text_composition_witness :
    ("R\n\nbbb" : String) =
      pyJoinS "\n\n" ((chunk_text_by_chars (safe_trim "aaa\n\nbbb" 20000) cfgW.chunkMax).enum.map
        (chunkContribution orW cfgW "T")) ∧
    [(⟨1, some 404, "nf", [("a", "b")], none⟩ : DiagEntry)] =
      (chunk_text_by_chars (safe_trim "aaa\n\nbbb" 20000) cfgW.chunkMax).enum.filterMap
        (chunkDiag orW cfgW "T") :=
  rewrite_text_composition orW cfgW "aaa\n\nbbb" "T" "R\n\nbbb" false
    [⟨1, some 404, "nf", [("a", "b")], none⟩] (by decide) rfl

/-- C10: for the empty-string input and every tone (and any
configuration and outside world), `rewrite_text` returns exactly
`("", True, [])`: zero chunks exist, so `any_success` stays false and
the all-failed flag is true even though no chunk failed — a caller
that warns whenever the flag is true will warn on empty input. -/
theorem rewrite_text_empty_input (oracle : Nat → Nat → OnceEnv) (cfg : Config)
    (tone : String) :
    rewrite_text oracle cfg "" tone = .ok ("", true, []) := rfl

/-! ## C1: when `rewrite_text` cannot raise -/

/-- Client-construction discipline: whenever the SDK module imported,
`genai.Client()` succeeds.  (The construction happens OUTSIDE the
`try` in `_call_gemini_sdk_once`, so a raising constructor propagates
all the way out of `rewrite_text` — see the C1 counterexample.) -/
def constructsOk (env : OnceEnv) : Prop :=
  env.sdkAvailable = true → env.clientConstruct = .ok ()

/-- REST success payloads parse to strings (true of every well-formed
Gemini response body; a body whose `parts[0]["text"]` is a non-string
leaf would make the orchestrator's `.strip()` raise). -/
def restTextual (env : OnceEnv) : Prop :=
  ∀ m p st body hdrs, env.rest m p = .response st body hdrs → st < 400 →
    ∃ s, parse_gemini_rest_result body = .str s

/-- A headers mapping whose `Retry-After` hint, when present and
parseable, is non-negative (a negative hint would make `time.sleep`
raise). -/
def hintNonneg (hdrs : Headers) : Prop :=
  ∀ ra w, hdrs.lookup "Retry-After" = some ra → pyFloat ra = some w → 0 ≤ w

/-- All response headers the environment can produce carry
non-negative retry hints. -/
def restHintsNonneg (env : OnceEnv) : Prop :=
  ∀ m p st body hdrs, env.rest m p = .response st body hdrs → hintNonneg hdrs

/-- A well-behaved outside world for one adapter attempt. -/
def OnceEnv.benign (env : OnceEnv) : Prop :=
  constructsOk env ∧ restTextual env ∧ restHintsNonneg env

/-- Adapter outputs that keep the retry loop and the orchestrator
exception-free: a string success, or a failure whose headers carry
only non-negative retry hints. -/
def GoodOut (out : CallOnceOut) : Prop :=
  (∃ s, out = .text (.str s)) ∨ (∃ f, out = .fail f ∧ hintNonneg f.headers)

theorem call_gemini_once_benign (env : OnceEnv) (henv : env.benign) (p m : String) :
    ∃ out, call_gemini_once env p m = .ok out ∧ GoodOut out := by
  obtain ⟨hc, ht, hr⟩ := henv
  obtain ⟨avail, ctor, gen, rest⟩ := env
  dsimp only [constructsOk] at hc
  cases avail with
  | true =>
    cases hc rfl
    rw [call_gemini_once]
    simp only [if_true]
    rw [call_gemini_sdk_once]
    simp only [if_true]
    cases hg : gen m p with
    | ok s => exact ⟨.text (.str s), rfl, Or.inl ⟨s, rfl⟩⟩
    | error e =>
      refine ⟨.fail ⟨none, short_preview e, [], some e⟩, rfl, Or.inr ⟨_, rfl, ?_⟩⟩
      intro ra w hra hw
      simp [List.lookup] at hra
  | false =>
    rw [call_gemini_once]
    simp only [Bool.false_eq_true, if_false]
    rw [call_gemini_rest_once, post_gemini_rest]
    dsimp only
    cases hnet : rest m p with
    | exc e =>
      refine ⟨.fail ⟨none, shortPreviewVal (.str ("exception:" ++ e)), [], none⟩,
        rfl, Or.inr ⟨_, rfl, ?_⟩⟩
      intro ra w hra hw
      simp [List.lookup] at hra
    | response st body hdrs =>
      dsimp only
      by_cases hlt : st < 400
      · obtain ⟨s, hs⟩ := ht m p st body hdrs (by dsimp only; exact hnet) hlt
        rw [if_pos (by simpa using hlt), hs]
        exact ⟨.text (.str s), rfl, Or.inl ⟨s, rfl⟩⟩
      · rw [if_neg (by simpa using hlt)]
        exact ⟨.fail ⟨some st, shortPreviewVal body, hdrs, none⟩, rfl,
          Or.inr ⟨_, rfl, hr m p st body hdrs (by dsimp only; exact hnet)⟩⟩

theorem retryWait_nonneg (hdrs : Headers) (backoff : Rat) (attempt : Nat)
    (hh : hintNonneg hdrs) (hb : 0 ≤ backoff) :
    0 ≤ retryWait hdrs backoff attempt := by
  have hba : 0 ≤ backoff * (attempt : Rat) :=
    mul_nonneg hb (Nat.cast_nonneg attempt)
  rw [retryWait]
  cases hl : hdrs.lookup "Retry-After" with
  | none => exact hba
  | some ra =>
    dsimp only
    by_cases hra : ra = ""
    · rw [if_pos hra]; exact hba
    · rw [if_neg hra]
      cases hp : pyFloat ra with
      | none => exact hba
      | some w => exact hh ra w hl hp

/-- On benign adapter outputs the retry loop never raises, and — as
long as at least one attempt runs or a previous failure is pending —
its result is a string success or a failure tuple (never `None`). -/
theorem retryGo_benign (adapter : Nat → Except String CallOnceOut)
    (tries : Nat) (backoff : Rat) (hb : 0 ≤ backoff)
    (had : ∀ n, ∃ out, adapter n = .ok out ∧ GoodOut out) :
    ∀ (l : List Nat) (last : Option FailTuple),
      (l = [] → ∃ f, last = some f) →
      ∃ rr, retryGo adapter tries backoff l last = .ok rr ∧
        ((∃ s, rr.result = some (.text (.str s))) ∨ (∃ f, rr.result = some (.fail f))) := by
  intro l
  induction l with
  | nil =>
    intro last hlast
    obtain ⟨f, hf⟩ := hlast rfl
    subst hf
    exact ⟨⟨some (.fail f), [], 0⟩, rfl, Or.inr ⟨f, rfl⟩⟩
  | cons attempt rest ih =>
    intro last _
    obtain ⟨out, hout, hgood⟩ := had attempt
    rw [retryGo, hout]
    rcases hgood with ⟨s, rfl⟩ | ⟨f, rfl, hhint⟩
    · exact ⟨⟨some (.text (.str s)), [], 1⟩, rfl, Or.inl ⟨s, rfl⟩⟩
    · dsimp only
      by_cases h429 : is429WithHeaders f = true
      · rw [if_pos h429]
        have hw : 0 ≤ retryWait f.headers backoff attempt :=
          retryWait_nonneg f.headers backoff attempt hhint hb
        rw [pySleep, if_neg (not_lt.mpr hw)]
        obtain ⟨rr, hrr, hshape⟩ := ih (some f) (fun _ => ⟨f, rfl⟩)
        rw [hrr]
        exact ⟨⟨rr.result, retryWait f.headers backoff attempt :: rr.sleeps, rr.calls + 1⟩,
          rfl, hshape⟩
      · rw [if_neg h429]
        by_cases hce : isClientError f.status = true
        · rw [if_pos hce]
          exact ⟨⟨some (.fail f), [], 1⟩, rfl, Or.inr ⟨f, rfl⟩⟩
        · rw [if_neg hce]
          by_cases hlt : attempt < tries
          · rw [if_pos hlt]
            rw [pySleep, if_neg (not_lt.mpr (mul_nonneg hb (Nat.cast_nonneg attempt)))]
            obtain ⟨rr, hrr, hshape⟩ := ih (some f) (fun _ => ⟨f, rfl⟩)
            rw [hrr]
            exact ⟨⟨rr.result, backoff * attempt :: rr.sleeps, rr.calls + 1⟩, rfl, hshape⟩
          · rw [if_neg hlt]
            exact ⟨⟨some (.fail f), [], 1⟩, rfl, Or.inr ⟨f, rfl⟩⟩

/-- A success payload coming out of the retry loop was produced by
some attempt of the adapter: the loop never invents successes. -/
theorem retryGo_text_from_adapter (adapter : Nat → Except String CallOnceOut)
    (tries : Nat) (backoff : Rat) :
    ∀ (l : List Nat) (last : Option FailTuple) (rr : RetryResult) (v : PyVal),
      retryGo adapter tries backoff l last = .ok rr →
      rr.result = some (.text v) → ∃ n ∈ l, adapter n = .ok (.text v) := by
  intro l
  induction l with
  | nil =>
    intro last rr v h hres
    rw [retryGo] at h
    injection h with h
    rw [← h] at hres
    cases last with
    | none => simp at hres
    | some f => simp at hres
  | cons attempt rest ih =>
    intro last rr v h hres
    rw [retryGo] at h
    cases hout : adapter attempt with
    | error e => rw [hout] at h; dsimp only at h; cases h
    | ok out =>
      rw [hout] at h
      dsimp only at h
      cases out with
      | text w =>
        injection h with h
        rw [← h] at hres
        simp only [Option.some.injEq, CallOnceOut.text.injEq] at hres
        exact ⟨attempt, by simp, by rw [hout, hres]⟩
      | fail f =>
        dsimp only at h
        by_cases h429 : is429WithHeaders f = true
        · rw [if_pos h429] at h
          cases hslp : pySleep (retryWait f.headers backoff attempt) with
          | error e => rw [hslp] at h; dsimp only at h; cases h
          | ok u =>
            rw [hslp] at h
            dsimp only at h
            cases hrec : retryGo adapter tries backoff rest (some f) with
            | error e => rw [hrec] at h; dsimp only at h; cases h
            | ok rr2 =>
              rw [hrec] at h
              dsimp only at h
              injection h with h
              rw [← h] at hres
              dsimp only at hres
              obtain ⟨n, hn, ha⟩ := ih (some f) rr2 v hrec hres
              exact ⟨n, by simp [hn], ha⟩
        · rw [if_neg h429] at h
          by_cases hce : isClientError f.status = true
          · rw [if_pos hce] at h
            injection h with h
            rw [← h] at hres
            simp at hres
          · rw [if_neg hce] at h
            by_cases hlt : attempt < tries
            · rw [if_pos hlt] at h
              cases hslp : pySleep (backoff * attempt) with
              | error e => rw [hslp] at h; dsimp only at h; cases h
              | ok u =>
                rw [hslp] at h
                dsimp only at h
                cases hrec : retryGo adapter tries backoff rest (some f) with
                | error e => rw [hrec] at h; dsimp only at h; cases h
                | ok rr2 =>
                  rw [hrec] at h
                  dsimp only at h
                  injection h with h
                  rw [← h] at hres
                  dsimp only at hres
                  obtain ⟨n, hn, ha⟩ := ih (some f) rr2 v hrec hres
                  exact ⟨n, by simp [hn], ha⟩
            · rw [if_neg hlt] at h
              injection h with h
              rw [← h] at hres
              simp at hres

/-- The retried call of any chunk, under a benign oracle with the
source's positive defaults for tries and backoff, returns without
raising, and its result is a string success or a failure tuple. -/
theorem chunk_call_benign (oracle : Nat → Nat → OnceEnv) (cfg : Config) (tone : String)
    (hben : ∀ i a, (oracle i a).benign) (hb : 0 ≤ cfg.backoff) (ht : 1 ≤ cfg.tries)
    (i : Nat) (p : String) :
    ∃ rr, chunk_call oracle cfg tone i p = .ok rr ∧
      ((∃ s, rr.result = some (.text (.str s))) ∨ (∃ f, rr.result = some (.fail f))) := by
  rw [chunk_call, call_gemini_with_retry]
  refine retryGo_benign _ cfg.tries cfg.backoff hb
    (fun n => call_gemini_once_benign (oracle i n) (hben i n)
      (build_prompt_chunk p tone) cfg.model)
    (List.range' 1 cfg.tries) none ?_
  intro hnil
  rw [List.range'_eq_nil] at hnil
  omega

/-- Under well-shaped chunk outcomes the per-chunk loop never
raises. -/
theorem rewriteLoop_ok (oracle : Nat → Nat → OnceEnv) (cfg : Config) (tone : String)
    (hgood : ∀ i p, ∃ rr, chunk_call oracle cfg tone i p = .ok rr ∧
      ((∃ s, rr.result = some (.text (.str s))) ∨ (∃ f, rr.result = some (.fail f)))) :
    ∀ L : List (Nat × String), ∃ t, rewriteLoop oracle cfg tone L = .ok t := by
  intro L
  induction L with
  | nil => exact ⟨([], false, []), rfl⟩
  | cons ip L ih =>
    obtain ⟨i, p⟩ := ip
    obtain ⟨rr, hcc, hshape⟩ := hgood i p
    obtain ⟨t, htr⟩ := ih
    obtain ⟨outs, any2, diags⟩ := t
    rw [rewriteLoop, hcc]
    dsimp only
    rcases hshape with ⟨s, hs⟩ | ⟨f, hf⟩
    · rw [hs, htr]
      exact ⟨_, rfl⟩
    · rw [hf, htr]
      exact ⟨_, rfl⟩

theorem length_filterMap_of_all_some {α β : Type} (f : α → Option β) :
    ∀ l : List α, (∀ a ∈ l, (f a).isSome) → (l.filterMap f).length = l.length := by
  intro l
  induction l with
  | nil => intro _; rfl
  | cons a l ih =>
    intro hall
    rw [List.filterMap_cons]
    cases hfa : f a with
    | none =>
      have := hall a (by simp)
      rw [hfa] at this
      simp at this
    | some b =>
      simp only [List.length_cons]
      rw [ih (fun x hx => hall x (by simp [hx]))]

/-- C1 (amended): under the source's default configuration,
`rewrite_text` never raises for any input text and tone PROVIDED the
outside world is benign — in particular, provided `genai.Client()`
does not raise when the SDK module is available (client-construction
failure is NOT captured as data: it escapes, see the counterexample) —
and under total failure of the remote service the outcome's text is
exactly the trimmed, chunked, blank-line-rejoined original input, the
all-failed flag is true, and one diagnostics entry exists per chunk. -/
theorem rewrite_text_no_raise_amended (oracle : Nat → Nat → OnceEnv) (text tone : String)
    (hben : ∀ i a, (oracle i a).benign) :
    (∃ res, rewrite_text oracle defaultConfig text tone = .ok res) ∧
    ((∀ i a p m, ∃ f, call_gemini_once (oracle i a) p m = .ok (.fail f)) →
      rewrite_text oracle defaultConfig text tone =
        .ok (pyJoinS "\n\n"
               (chunk_text_by_chars (safe_trim text 20000) defaultConfig.chunkMax),
             true,
             (chunk_text_by_chars (safe_trim text 20000) defaultConfig.chunkMax).enum.filterMap
               (chunkDiag oracle defaultConfig tone)) ∧
      ((chunk_text_by_chars (safe_trim text 20000) defaultConfig.chunkMax).enum.filterMap
          (chunkDiag oracle defaultConfig tone)).length =
        (chunk_text_by_chars (safe_trim text 20000) defaultConfig.chunkMax).length) := by
  have hb : (0 : Rat) ≤ defaultConfig.backoff := by norm_num [defaultConfig]
  have ht : 1 ≤ defaultConfig.tries := by norm_num [defaultConfig]
  have hgood := fun i p => chunk_call_benign oracle defaultConfig tone hben hb ht i p
  constructor
  · obtain ⟨t, htr⟩ :=
      rewriteLoop_ok oracle defaultConfig tone hgood
        (chunk_text_by_chars (safe_trim text 20000) defaultConfig.chunkMax).enum
    obtain ⟨outs, any2, diags⟩ := t
    refine ⟨(pyJoinS "\n\n" outs, !any2, diags), ?_⟩
    rw [rewrite_text, htr]
  · intro htotal
    have hfail : ∀ i p, ∃ rr f, chunk_call oracle defaultConfig tone i p = .ok rr ∧
        rr.result = some (.fail f) := by
      intro i p
      obtain ⟨rr, hcc, hshape⟩ := hgood i p
      rcases hshape with ⟨s, hs⟩ | ⟨f, hf⟩
      · exfalso
        rw [chunk_call, call_gemini_with_retry] at hcc
        obtain ⟨n, -, hadp⟩ :=
          retryGo_text_from_adapter _ defaultConfig.tries defaultConfig.backoff
            (List.range' 1 defaultConfig.tries) none rr (.str s) hcc hs
        obtain ⟨f, hfl⟩ := htotal i n (build_prompt_chunk p tone) defaultConfig.model
        rw [hadp] at hfl
        injection hfl with hfl
        cases hfl
      · exact ⟨rr, f, hcc, hf⟩
    obtain ⟨t, htr⟩ :=
      rewriteLoop_ok oracle defaultConfig tone hgood
        (chunk_text_by_chars (safe_trim text 20000) defaultConfig.chunkMax).enum
    obtain ⟨outs, any2, diags⟩ := t
    obtain ⟨iho, iha, ihd⟩ :=
      rewriteLoop_eq oracle defaultConfig tone _ outs any2 diags htr
    have hcontrib : ∀ ip ∈ (chunk_text_by_chars (safe_trim text 20000)
        defaultConfig.chunkMax).enum,
        chunkContribution oracle defaultConfig tone ip = Prod.snd ip := by
      intro ip _
      obtain ⟨i, p⟩ := ip
      obtain ⟨rr, f, hcc, hf⟩ := hfail i p
      simp [chunkContribution, hcc, hf]
    have hsucc : ∀ ip ∈ (chunk_text_by_chars (safe_trim text 20000)
        defaultConfig.chunkMax).enum,
        ¬chunkSucceeded oracle defaultConfig tone ip = true := by
      intro ip _
      obtain ⟨i, p⟩ := ip
      obtain ⟨rr, f, hcc, hf⟩ := hfail i p
      simp [chunkSucceeded, hcc, hf]
    have hdiag : ∀ ip ∈ (chunk_text_by_chars (safe_trim text 20000)
        defaultConfig.chunkMax).enum,
        (chunkDiag oracle defaultConfig tone ip).isSome := by
      intro ip _
      obtain ⟨i, p⟩ := ip
      obtain ⟨rr, f, hcc, hf⟩ := hfail i p
      simp [chunkDiag, hcc, hf]
    have houts : outs = chunk_text_by_chars (safe_trim text 20000) defaultConfig.chunkMax := by
      rw [iho, List.map_congr_left hcontrib, List.enum_map_snd]
    have hany : any2 = false := by
      rw [iha]
      exact List.any_eq_false.mpr hsucc
    refine ⟨?_, ?_⟩
    · rw [rewrite_text, htr, houts, hany, ihd]
      rfl
    · rw [length_filterMap_of_all_some _ _ hdiag, List.enum_length]

/-- An environment whose `genai.Client()` constructor raises (as the
real one does when no API key is configured). -/
def envCtorRaises : OnceEnv :=
  ⟨true, .error "ValueError: Missing key inputs argument", fun _ _ => .ok "hi",
   fun _ _ => .exc "down"⟩

/-- C1 counterexample: `genai.Client()` is called OUTSIDE the `try`
block of `_call_gemini_sdk_once`, so when client construction raises,
the exception is NOT captured as data and propagates out of
`rewrite_text` — the function raises on a well-formed string input. -/
theorem rewrite_text_raises_on_client_construction_failure :
    rewrite_text (fun _ _ => envCtorRaises) defaultConfig "hello" "Neutral" =
      .error "ValueError: Missing key inputs argument" := rfl

/-- Benign total-failure environment for the C1 witness: no SDK, every
REST call raises a connection error. -/
def envDownW : OnceEnv :=
  ⟨false, .ok (), fun _ _ => .error "x", fun _ _ => .exc "connection refused"⟩

theorem envDownW_benign : ∀ i a : Nat, ((fun _ _ => envDownW) i a : OnceEnv).benign := by
  intro i a
  refine ⟨?_, ?_, ?_⟩
  · intro h
    simp [envDownW] at h
  · intro m p st body hdrs heq
    simp [envDownW] at heq
  · intro m p st body hdrs heq
    simp [envDownW] at heq

/-- Witness for C1 (amended): with every remote call failing on a
connection error, `rewrite_text` still returns, with the rejoined
original text, flag true, and one diagnostics entry per chunk. -/
theorem rewrite_text_no_raise_amended_witness :
    rewrite_text (fun _ _ => envDownW) defaultConfig "hi\n\nthere" "Neutral" =
      .ok (pyJoinS "\n\n"
             (chunk_text_by_chars (safe_trim "hi\n\nthere" 20000) defaultConfig.chunkMax),
           true,
           (chunk_text_by_chars (safe_trim "hi\n\nthere" 20000)
               defaultConfig.chunkMax).enum.filterMap
             (chunkDiag (fun _ _ => envDownW) defaultConfig "Neutral")) ∧
    ((chunk_text_by_chars (safe_trim "hi\n\nthere" 20000)
        defaultConfig.chunkMax).enum.filterMap
      (chunkDiag (fun _ _ => envDownW) defaultConfig "Neutral")).length =
      (chunk_text_by_chars (safe_trim "hi\n\nthere" 20000) defaultConfig.chunkMax).length :=
  (rewrite_text_no_raise_amended (fun _ _ => envDownW) "hi\n\nthere" "Neutral"
      envDownW_benign).2
    (fun _ _ _ _ => ⟨⟨none, "exception:connection refused", [], none⟩, rfl⟩)
